import Mathlib

/-
  Verification development for the Tably restaurant-ordering backend.

  Shallow embedding of:
  - `backend/app/services/menu_validator.py` (class MenuValidator)
  - `backend/app/services/conversation_memory.py` (ConversationMemoryService)
  - `backend/app/agents/swarm_orchestrator.py` (process_order_with_swarm,
    _fallback_to_single_agent)

  Python strings are modelled as `List Char`; `x in y` on strings is the
  substring test `containsSub`; Python dicts are modelled as association
  lists with first-match lookup, replace-on-insert, filter-on-delete.
  Python exceptions are modelled with `Except Unit`; external collaborators
  (database fetch, LLM completion calls, json.loads) are oracle parameters.
-/

/-- Python strings, embedded as character lists. -/
abbrev Str := List Char

/-- `hasPre p s` : `p` is a leading segment of `s` (Python `s.startswith(p)`). -/
def hasPre : Str → Str → Bool
  | [], _ => true
  | _ :: _, [] => false
  | a :: as, b :: bs => a == b && hasPre as bs

/-- `containsSub n h` : Python `n in h` for strings (contiguous substring). -/
def containsSub (n : Str) : Str → Bool
  | [] => hasPre n []
  | h :: t => hasPre n (h :: t) || containsSub n t

/-- Python `s.lower()` (ASCII-adequate). -/
def lowerStr (s : Str) : Str := s.map Char.toLower

/-! ## Menu validator (`menu_validator.py`, class `MenuValidator`) -/

/-- A well-formed menu record as consumed by the validator: the string
values of the `name`, `price` and `category` keys (`price` is embedded as
the string Python's f-string interpolation renders it to). -/
structure MenuItem where
  name : Str
  price : Str
  category : Str
  deriving DecidableEq, Repr

/-- A raw item dict as returned by the database layer: an association list
of string keys to string values; `name`/`price` may be absent (Python
`item["name"]` then raises `KeyError`). -/
abbrev RawItem := List (String × Str)

def rawGet (it : RawItem) (k : String) : Option Str :=
  match it with
  | [] => none
  | (k', v) :: rest => if k' = k then some v else rawGet rest k

/-- `item["name"]`, `item["price"]`, `item.get("category", "Other")`:
fails (KeyError) exactly when `name` or `price` is missing. -/
def toTyped (it : RawItem) : Except Unit MenuItem :=
  match rawGet it "name", rawGet it "price" with
  | some n, some p => .ok ⟨n, p, (rawGet it "category").getD ("Other".data)⟩
  | _, _ => .error ()

/-- menu_validator.py lines 101-108: the fixed generic-term vocabulary. -/
def generic_items : List Str :=
  (["classic", "grilled", "veggie", "bacon", "mushroom", "swiss",
    "beef", "chicken", "cheese", "burger", "sandwich", "deluxe",
    "supreme", "premium", "signature", "special", "original",
    "espresso shot", "cappuccino", "latte", "americano", "mocha",
    "flat white", "cold brew", "affogato", "cortado", "macchiato"] :
    List String).map String.data

/-- menu_validator.py lines 120-124: negative-availability markers. -/
def negative_indicators : List Str :=
  (["doesn't", "don't", "not available", "not on", "not in",
    "doesn't have", "don't have", "not currently", "not feature",
    "doesn't currently", "don't currently", "not offer", "doesn't offer"] :
    List String).map String.data

/-- menu_validator.py lines 138-141: cart / order-confirmation markers. -/
def cart_indicators : List Str :=
  (["added", "add", "cart", "order", "confirm", "placed", "added to your cart",
    "added to your order", "added to cart", "added to order", "i've added"] :
    List String).map String.data

/-- f"{item['name']} (₱{item['price']})" -/
def fmtItem (it : MenuItem) : Str :=
  it.name ++ (" (₱".data) ++ it.price ++ (")".data)

/-- One step of the `categories` dict build (lines 158-163): append the
entry to its category's list, creating the category on first occurrence
(Python dicts preserve insertion order). -/
def addToGroups (gs : List (Str × List Str)) (cat : Str) (e : Str) :
    List (Str × List Str) :=
  if gs.any (fun p => p.1 = cat) then
    gs.map (fun p => if p.1 = cat then (p.1, p.2 ++ [e]) else p)
  else
    gs ++ [(cat, [e])]

def groupByCategory (menu : List MenuItem) : List (Str × List Str) :=
  menu.foldl (fun gs it => addToGroups gs it.category (fmtItem it)) []

/-- Lines 166-169: render one category block
`"\n" ++ category ++ ":\n"` then `"- " ++ item ++ "\n"` per entry. -/
def renderGroup (p : Str × List Str) : Str :=
  ("\n".data) ++ p.1 ++ (":\n".data) ++
    (p.2.map (fun e => ("- ".data) ++ e ++ ("\n".data))).flatten

def renderGroups (gs : List (Str × List Str)) : Str :=
  (gs.map renderGroup).flatten

def apologyText : Str :=
  "I'm sorry, but I can only recommend items that are actually available on our menu. ".data

def errorApology : Str :=
  "I'm sorry, but I encountered an error. Please ask a staff member for assistance.".data

/-- Line 127: `has_negative_indicator` (computed over the whole response). -/
def has_negative_indicator (response : Str) : Bool :=
  negative_indicators.any (fun ind => containsSub ind (lowerStr response))

/-- Lines 110-131: the `non_menu_items` accumulation loop, as a filter:
a generic term is flagged iff it occurs in the lowered response, is not a
substring of any lowered menu-item name, and no negative indicator occurs
anywhere in the response. -/
def non_menu_items (response : Str) (menu_items : List MenuItem) : List Str :=
  generic_items.filter (fun g =>
    containsSub g (lowerStr response) &&
    !((menu_items.map (fun it => lowerStr it.name)).any
        (fun item => containsSub g item)) &&
    !has_negative_indicator response)

/-- Line 143: `has_cart_indicator`. -/
def has_cart_indicator (response : Str) : Bool :=
  cart_indicators.any (fun c => containsSub c (lowerStr response))

/-- Line 148: `has_menu_items` — some full menu-item name occurs in the
response (case-insensitively). -/
def has_menu_items (response : Str) (menu_items : List MenuItem) : Bool :=
  menu_items.any (fun it => containsSub (lowerStr it.name) (lowerStr response))

/-- Lines 153-171: the synthesized replacement response. -/
def corrected_response (menu_items : List MenuItem) : Str :=
  apologyText ++
    (if !(menu_items.map fmtItem).isEmpty then
      ("Here are our available items:\n".data) ++
        renderGroups (groupByCategory menu_items)
    else
      "Please ask a staff member for our current menu.".data)

/-- menu_validator.py lines 96-175: the validation body once the menu has
been fetched and found non-empty (the empty-menu fail-open and the
KeyError path are in `validate_response_async` below). -/
def validateCore (response : Str) (menu_items : List MenuItem) :
    Bool × Str × List Str :=
  if !(non_menu_items response menu_items).isEmpty then
    if has_cart_indicator response && has_menu_items response menu_items then
      (true, response, menu_items.map fmtItem)
    else
      (false, corrected_response menu_items, menu_items.map fmtItem)
  else
    (true, response, menu_items.map fmtItem)

/-- menu_validator.py lines 53-69 (`get_business_menu_items_async`): the
database call's outcome is the oracle `db`; any exception it raises is
caught here and turned into `[]`, as is a falsy `menu_data` or a missing
or falsy `items` key. -/
def get_business_menu_items_async (db : Except Unit (Option (List RawItem))) :
    List RawItem :=
  match db with
  | .error _ => []
  | .ok none => []
  | .ok (some items) => items

/-- menu_validator.py lines 71-179 (`validate_response_async`): fetch the
menu (fail-open to pass-through when it comes back empty), then run the
validation body; a KeyError raised by the body's `item["name"]` /
`item["price"]` accesses is caught by the outer handler (lines 177-179)
and produces the fixed error apology. -/
def validate_response_async (db : Except Unit (Option (List RawItem)))
    (response : Str) : Bool × Str × List Str :=
  let menu_items := get_business_menu_items_async db
  if menu_items.isEmpty then
    (true, response, [])
  else
    match menu_items.mapM toTyped with
    | .error _ => (false, errorApology, [])
    | .ok typed => validateCore response typed

/-! ## Conversation memory (`conversation_memory.py`) -/

abbrev MetaData := List (String × String)

/-- conversation_memory.py lines 14-20 (`ChatMessage`); timestamps are
abstract clock readings (`Nat`). -/
structure ChatMessage where
  role : String
  content : String
  timestamp : Nat
  metadata : Option MetaData
  deriving DecidableEq, Repr

/-- conversation_memory.py lines 31-40 (`ConversationSession`). -/
structure ConversationSession where
  session_id : String
  business_id : Option String
  user_id : Option String
  messages : List ChatMessage
  created_at : Nat
  last_activity : Nat
  context : MetaData
  deriving DecidableEq, Repr

/-- Lines 42-51: append a message, refresh `last_activity`. `now` is the
value `datetime.utcnow()` reads during the call. -/
def ConversationSession.add_message (s : ConversationSession)
    (role content : String) (metadata : Option MetaData) (now : Nat) :
    ConversationSession :=
  { s with
    messages := s.messages ++ [⟨role, content, now, metadata⟩],
    last_activity := now }

/-- Python dict lookup (first and, for well-formed dicts, only match). -/
def dictGet {V : Type} : List (String × V) → String → Option V
  | [], _ => none
  | (k', v) :: rest, k => if k' = k then some v else dictGet rest k

/-- Python dict assignment `d[k] = v`: replace in place, else append. -/
def dictInsert {V : Type} (l : List (String × V)) (k : String) (v : V) :
    List (String × V) :=
  if l.any (fun p => p.1 = k) then
    l.map (fun p => if p.1 = k then (k, v) else p)
  else
    l ++ [(k, v)]

/-- Python `del d[k]`. -/
def dictErase {V : Type} (l : List (String × V)) (k : String) :
    List (String × V) :=
  l.filter (fun p => p.1 ≠ k)

/-- The service state (lines 113-117): the `sessions` dict plus the
configured timeout, in the same abstract clock units as `now`
(the source default is 30 minutes). -/
structure MemState where
  sessions : List (String × ConversationSession)
  session_timeout : Nat
  deriving DecidableEq, Repr

/-- Lines 119-138 (`create_session`): unconditionally builds a fresh
session and stores it under `session_id` — there is no duplicate check
and no failure path in the source. -/
def create_session (st : MemState) (now : Nat) (session_id : String)
    (business_id user_id : Option String) :
    ConversationSession × MemState :=
  let s : ConversationSession :=
    ⟨session_id, business_id, user_id, [], now, now, []⟩
  (s, { st with sessions := dictInsert st.sessions session_id s })

/-- Lines 140-151 (`get_session`): lazy expiry eviction.
`datetime.utcnow() - last_activity > timeout` is `timeout < now - last`
(Nat subtraction agrees with the Python comparison since a negative
timedelta is never greater than the non-negative timeout). -/
def get_session (st : MemState) (now : Nat) (session_id : String) :
    Option ConversationSession × MemState :=
  match dictGet st.sessions session_id with
  | some s =>
    if st.session_timeout < now - s.last_activity then
      (none, { st with sessions := dictErase st.sessions session_id })
    else
      (some s, st)
  | none => (none, st)

/-- Lines 153-163 (`get_or_create_session`). -/
def get_or_create_session (st : MemState) (now : Nat) (session_id : String)
    (business_id user_id : Option String) :
    ConversationSession × MemState :=
  match get_session st now session_id with
  | (some s, st') => (s, st')
  | (none, st') => create_session st' now session_id business_id user_id

/-- Lines 165-177 (`add_user_message`): get-or-create then append; the
mutation of the aliased dict entry is modelled by writing the updated
session back into the map. -/
def add_user_message (st : MemState) (now : Nat) (session_id : String)
    (message : String) (business_id user_id : Option String)
    (metadata : Option MetaData) :
    ConversationSession × MemState :=
  let p := get_or_create_session st now session_id business_id user_id
  let s' := p.1.add_message "user" message metadata now
  (s', { p.2 with sessions := dictInsert p.2.sessions session_id s' })

/-- Lines 179-190 (`add_assistant_message`): no-op returning `None` when
the session is absent or expired; never creates a session. -/
def add_assistant_message (st : MemState) (now : Nat) (session_id : String)
    (message : String) (metadata : Option MetaData) :
    Option ConversationSession × MemState :=
  match get_session st now session_id with
  | (some s, st') =>
    let s' := s.add_message "assistant" message metadata now
    (some s', { st' with sessions := dictInsert st'.sessions session_id s' })
  | (none, st') => (none, st')

/-- One caller-visible append call, tagged with the clock value at which
it executes. -/
inductive MemCall where
  | user (msg : String)
  | assistant (msg : String)
  deriving DecidableEq, Repr

/-- Run a sequence of append calls against one session id. -/
def runCalls (st : MemState) (session_id : String) :
    List (Nat × MemCall) → MemState
  | [] => st
  | (t, .user m) :: rest =>
    runCalls (add_user_message st t session_id m none none none).2 session_id rest
  | (t, .assistant m) :: rest =>
    runCalls (add_assistant_message st t session_id m none).2 session_id rest

/-- The session never expires during the calls: each call's clock reading
is within `timeout` of the previous activity. -/
def chainFresh (timeout : Nat) : Nat → List (Nat × MemCall) → Bool
  | _, [] => true
  | lastAct, (t, _) :: rest =>
    !(timeout < t - lastAct) && chainFresh timeout t rest

/-- The message each call appends. -/
def callMsg : Nat × MemCall → ChatMessage
  | (t, .user m) => ⟨"user", m, t, none⟩
  | (t, .assistant m) => ⟨"assistant", m, t, none⟩

/-! ## Swarm orchestrator (`swarm_orchestrator.py`) -/

/-- A JSON value as produced by `json.loads` (numbers are embedded by the
string Python renders them to). -/
inductive Json where
  | null
  | bool (b : Bool)
  | num (render : Str)
  | str (s : Str)
  | arr (xs : List Json)
  | obj (fields : List (String × Json))

mutual

/-- Python `repr` of a json-like value (as used inside container
renderings by f-string interpolation). -/
def pyRepr : Json → Str
  | .null => "None".data
  | .bool true => "True".data
  | .bool false => "False".data
  | .num r => r
  | .str s => ("'".data) ++ s ++ ("'".data)
  | .arr xs => ("[".data) ++ pyReprList xs ++ ("]".data)
  | .obj fs => ("\x7b".data) ++ pyReprFields fs ++ ("\x7d".data)

def pyReprList : List Json → Str
  | [] => []
  | [x] => pyRepr x
  | x :: y :: xs => pyRepr x ++ (", ".data) ++ pyReprList (y :: xs)

def pyReprFields : List (String × Json) → Str
  | [] => []
  | [(k, v)] => ("'".data) ++ k.data ++ ("': ".data) ++ pyRepr v
  | (k, v) :: f :: fs =>
    ("'".data) ++ k.data ++ ("': ".data) ++ pyRepr v ++ (", ".data) ++
      pyReprFields (f :: fs)

end

/-- Python `str` of a json-like value (f-string interpolation). -/
def pyStr : Json → Str
  | .str s => s
  | j => pyRepr j

/-- One entry of `result.node_history`: `node_id`, and the `str()` of its
`result` attribute when that attribute exists (`hasattr`). -/
structure SwarmNode where
  node_id : Str
  result : Option Str
  deriving DecidableEq, Repr

/-- The strands `SwarmResult` as observed by the orchestrator: the
`str()` of its status, the node history, and the `str()` of the whole
result object. -/
structure SwarmResult where
  status : Str
  node_history : List SwarmNode
  str_repr : Str
  deriving DecidableEq, Repr

/-- External collaborators of the orchestrator: `json.loads` and the LLM
completion call behind `Agent.__call__` (system prompt, request). -/
structure AgentEnv where
  json_loads : Str → Except Unit Json
  complete : Str → Str → Except Unit Str

/-- Python truthiness of an optional string. -/
def optTruthy (o : Option Str) : Bool :=
  match o with
  | none => false
  | some s => !s.isEmpty

def jGet (fields : List (String × Json)) (k : String) : Option Json :=
  dictGet fields k

/-- Lines 355-358: format one structured menu item, requiring the `name`
and `price` keys. -/
def fmtJsonItem (item : Json) : Option Str :=
  match item with
  | .obj ifs =>
    match jGet ifs "name", jGet ifs "price" with
    | some n, some p =>
      some (pyStr n ++ (" (₱".data) ++ pyStr p ++ (")".data))
    | _, _ => none
  | _ => none

/-- Lines 350-358: collect the formatted entries of `menu_items` when it
is a dict of category → list of item dicts. -/
def structuredMenuEntries (menu_items : Json) : List Str :=
  match menu_items with
  | .obj cats =>
    (cats.map (fun c =>
      match c.2 with
      | .arr items => items.filterMap fmtJsonItem
      | _ => [])).flatten
  | _ => []

/-- `", ".join(...)`. -/
def joinCommaSp : List Str → Str
  | [] => []
  | [x] => x
  | x :: y :: xs => x ++ (", ".data) ++ joinCommaSp (y :: xs)

def criticalNote : Str :=
  "\n\nCRITICAL: You MUST ONLY mention, recommend, or suggest items from this exact list. NEVER suggest items not in this list.".data

/-- Lines 339-364: the context fragments contributed by a successfully
parsed menu-context value. -/
def contextFromParsedMenu (menu_context : Str) (j : Json) : Str :=
  match j with
  | .obj fields =>
    (match jGet fields "explicit_menu_items" with
     | some v => ("\n\nEXPLICIT MENU ITEMS: ".data) ++ pyStr v ++ criticalNote
     | none => []) ++
    (match jGet fields "menu_restrictions" with
     | some v => ("\n\n".data) ++ pyStr v
     | none => []) ++
    (match jGet fields "menu_items" with
     | some mi =>
       let available_items := structuredMenuEntries mi
       if !available_items.isEmpty then
         ("\n\nSTRUCTURED MENU ITEMS: ".data) ++ joinCommaSp available_items ++
           criticalNote
       else []
     | none => [])
  | _ => ("\n\nMENU DATA:\n".data) ++ menu_context

/-- Lines 329-372: build the fallback agent's context string (a
`json.loads` exception is caught at lines 365-367). -/
def buildFallbackContext (env : AgentEnv)
    (business_id menu_context conversation_context : Option Str) : Str :=
  (if optTruthy business_id then
    ("Business ID: ".data) ++ business_id.getD [] ++ ("\n".data)
  else []) ++
  (if optTruthy menu_context then
    (match env.json_loads (menu_context.getD []) with
     | .error _ => ("\n\nMENU DATA:\n".data) ++ menu_context.getD []
     | .ok j => contextFromParsedMenu (menu_context.getD []) j)
  else
    ("\n\nMENU DATA: No menu data available. Please ask staff for assistance.".data)) ++
  (if optTruthy conversation_context then
    ("\n\n".data) ++ conversation_context.getD []
  else [])

/-- Lines 375-399 of the fallback prompt template: the fixed part before
the interpolated context. -/
def fallbackPromptPre : Str :=
  ("\nYou are a comprehensive restaurant ordering assistant with the following capabilities:\n\n1. Order Coordination: Help customers place orders and manage their requests\n2. Menu Expertise: Deep knowledge of menu items and recommendations\n3. Language Support: Handle multilingual communication and translation\n4. Dietary Assistance: Manage allergies and dietary restrictions\n5. Order Validation: Ensure complete and accurate orders\n\n**CRITICAL**: Only work with items from the restaurant's actual menu data provided.\n\n**QUANTITY HANDLING RULES**:\n- When customer doesn't specify quantity: Add exactly 1 item\n- When customer specifies a number: Add exactly that quantity (e.g., \"2 Cappuccinos\" = add 2)\n- When customer asks for multiple different items: Add all requested items with their specified quantities\n- Always confirm the exact quantity being added to cart\n- Use clear language like \"I've added X [item] to your cart\" or \"I've added X [item]s to your cart\"\n\n**EXAMPLES**:\n- \"Add a Cappuccino\" → \"I've added the Cappuccino (₱200) to your cart\"\n- \"Add 2 Cappuccinos\" → \"I've added 2 Cappuccinos (₱200 each) to your cart\"\n- \"I want a Cappuccino and a Latte\" → \"I've added the Cappuccino (₱200) and Latte (₱210) to your cart\"\n- \"Add 3 Cappuccinos and 2 Lattes\" → \"I've added 3 Cappuccinos (₱200 each) and 2 Lattes (₱210 each) to your cart\"\n\n").data

/-- The fixed part of the prompt template after the context. -/
def fallbackPromptPost : Str :=
  "\n\nBe helpful, friendly, and comprehensive in your responses. Handle all aspects of the customer's request in a single response.\n".data

/-- Lines 425-427: the degraded apology on any exception in the fallback. -/
def techDifficulties : Str :=
  "I apologize, but I'm experiencing technical difficulties. Please try again later or speak with our staff for assistance.".data

/-- Lines 317-427 (`_fallback_to_single_agent`), for text requests: build
the comprehensive prompt and invoke the single agent; any exception is
caught and converted to the fixed apology. -/
def fallback_to_single_agent (env : AgentEnv) (customer_request : Str)
    (business_id menu_context conversation_context : Option Str) : Str :=
  let context :=
    buildFallbackContext env business_id menu_context conversation_context
  let prompt := fallbackPromptPre ++ context ++ fallbackPromptPost
  match env.complete prompt customer_request with
  | .ok response => response
  | .error _ => techDifficulties

/-- Lines 222-275 (`process_order_with_swarm`): `swarm_run` is the outcome
of `swarm(customer_request)` (`.error` models it raising). Only the
completed status returns the swarm's own text; every other outcome calls
the fallback with the original request and the same contexts. -/
def process_order_with_swarm (env : AgentEnv)
    (swarm_run : Except Unit SwarmResult) (customer_request : Str)
    (business_id menu_context conversation_context : Option Str)
    (force_swarm : Bool) : Str :=
  if !force_swarm then
    fallback_to_single_agent env customer_request business_id menu_context
      conversation_context
  else
    match swarm_run with
    | .error _ =>
      fallback_to_single_agent env customer_request business_id menu_context
        conversation_context
    | .ok result =>
      if result.status = ("Status.COMPLETED".data) then
        match result.node_history.getLast? with
        | some node =>
          match node.result with
          | some r => r
          | none => result.str_repr
        | none => result.str_repr
      else
        fallback_to_single_agent env customer_request business_id menu_context
          conversation_context

/-! ## Concrete inputs used by witnesses and counterexamples -/

/-- Membership of a formatted entry under a category in the grouping. -/
def entryIn (cat e : Str) (gs : List (Str × List Str)) : Prop :=
  ∃ p ∈ gs, p.1 = cat ∧ e ∈ p.2

/-- The one-item menu from the spec's worked examples. -/
def cappMenu : List MenuItem :=
  [⟨"Cappuccino".data, "200".data, "Coffee".data⟩]

/-- A response with a hallucinated generic term plus cart language and a
real item name. -/
def cartResp : Str :=
  "I've added a latte to your cart, plus a Cappuccino.".data

/-- Spec example 1's input. -/
def latteReq : Str := "Can I get a latte?".data

/-- A fully grounded response. -/
def groundedResp : Str := "Our Cappuccino is great.".data

/-- A raw swarm output that the validator would reject. -/
def rawLatteResp : Str := "How about a latte?".data

/-- A completed swarm result whose final node produced `rawLatteResp`. -/
def doneSwarm : SwarmResult :=
  ⟨"Status.COMPLETED".data,
   [⟨"order_coordinator".data, some rawLatteResp⟩],
   "SwarmResult(completed)".data⟩

/-- A timed-out swarm result carrying partial work. -/
def failedSwarm : SwarmResult :=
  ⟨"Status.FAILED".data,
   [⟨"order_coordinator".data, some ("partial text".data)⟩],
   "SwarmResult(failed)".data⟩

/-- A concrete collaborator environment. -/
def stubEnv : AgentEnv :=
  ⟨fun _ => .error (), fun _ _ => .ok ("Here you go.".data)⟩

/-- A stored session with one message, last active at time 100. -/
def sess1 : ConversationSession :=
  ⟨"s1", none, none, [⟨"user", "hi", 0, none⟩], 0, 100, []⟩

/-- A memory state holding `sess1` with a 30-unit timeout. -/
def memSt1 : MemState := ⟨[("s1", sess1)], 30⟩

/-- A fresh, empty session created at time 0. -/
def sess0 : ConversationSession := ⟨"s1", none, none, [], 0, 0, []⟩

/-- A memory state holding the fresh `sess0`. -/
def memSt0 : MemState := ⟨[("s1", sess0)], 30⟩

/-! ## String lemmas -/

theorem hasPre_iff (p s : Str) : hasPre p s = true ↔ ∃ v, s = p ++ v := by
  induction p generalizing s with
  | nil => simp [hasPre]
  | cons a as ih =>
    cases s with
    | nil => simp [hasPre]
    | cons b bs =>
      simp only [hasPre, Bool.and_eq_true, beq_iff_eq, ih]
      constructor
      · rintro ⟨rfl, v, rfl⟩; exact ⟨v, rfl⟩
      · rintro ⟨v, hv⟩
        cases hv
        exact ⟨rfl, v, rfl⟩

theorem containsSub_iff (n h : Str) :
    containsSub n h = true ↔ ∃ u v, h = u ++ n ++ v := by
  induction h with
  | nil =>
    simp only [containsSub, hasPre_iff]
    constructor
    · rintro ⟨v, hv⟩; exact ⟨[], v, hv⟩
    · rintro ⟨u, v, huv⟩
      have hu : u = [] ∧ n ++ v = [] := by
        cases u with
        | nil => simpa using huv.symm
        | cons x xs => simp at huv
      exact ⟨v, by simpa [hu.1] using huv⟩
  | cons c t ih =>
    simp only [containsSub, Bool.or_eq_true, hasPre_iff, ih]
    constructor
    · rintro (⟨v, hv⟩ | ⟨u, v, rfl⟩)
      · exact ⟨[], v, by simpa using hv⟩
      · exact ⟨c :: u, v, by simp⟩
    · rintro ⟨u, v, huv⟩
      cases u with
      | nil => exact Or.inl ⟨v, by simpa using huv⟩
      | cons x xs =>
        simp only [List.cons_append, List.cons.injEq] at huv
        exact Or.inr ⟨xs, v, by simp [huv.2]⟩

theorem containsSub_of_parts (n u v : Str) : containsSub n (u ++ n ++ v) = true :=
  (containsSub_iff n _).2 ⟨u, v, rfl⟩

theorem hasPre_append (p v : Str) : hasPre p (p ++ v) = true :=
  (hasPre_iff p _).2 ⟨v, rfl⟩

/-! ## Dict lemmas -/

theorem dictGet_cons {V : Type} (a : String) (b : V) (rest : List (String × V))
    (k : String) :
    dictGet ((a, b) :: rest) k = if a = k then some b else dictGet rest k := rfl

theorem dictGet_map_replace {V : Type} (l : List (String × V)) (k : String)
    (v : V) (h : l.any (fun p => p.1 = k) = true) :
    dictGet (l.map (fun p => if p.1 = k then (k, v) else p)) k = some v := by
  induction l with
  | nil => simp at h
  | cons p rest ih =>
    obtain ⟨a, b⟩ := p
    simp only [List.map_cons]
    by_cases hk : a = k
    · rw [if_pos hk, dictGet_cons]
      simp
    · rw [if_neg hk, dictGet_cons, if_neg hk]
      refine ih ?_
      simp only [List.any_cons, Bool.or_eq_true, decide_eq_true_eq] at h
      exact (h.resolve_left hk)

theorem dictGet_append_absent {V : Type} (l : List (String × V)) (k : String)
    (v : V) (h : l.any (fun p => p.1 = k) = false) :
    dictGet (l ++ [(k, v)]) k = some v := by
  induction l with
  | nil => simp [dictGet]
  | cons p rest ih =>
    obtain ⟨a, b⟩ := p
    simp only [List.any_cons, Bool.or_eq_false_iff, decide_eq_false_iff_not] at h
    rw [List.cons_append, dictGet_cons, if_neg h.1]
    exact ih h.2

theorem dictGet_dictInsert_self {V : Type} (l : List (String × V)) (k : String)
    (v : V) : dictGet (dictInsert l k v) k = some v := by
  unfold dictInsert
  by_cases h : l.any (fun p => p.1 = k) = true
  · simp only [h, if_true]
    exact dictGet_map_replace l k v h
  · have h' : l.any (fun p => p.1 = k) = false := by
      cases hb : l.any (fun p => p.1 = k)
      · rfl
      · exact absurd hb h
    simp only [h', Bool.false_eq_true, if_false]
    exact dictGet_append_absent l k v h'

theorem dictGet_map_replace_ne {V : Type} (l : List (String × V))
    (k k' : String) (v : V) (h : k' ≠ k) :
    dictGet (l.map (fun p => if p.1 = k then (k, v) else p)) k' =
      dictGet l k' := by
  induction l with
  | nil => simp
  | cons p rest ih =>
    obtain ⟨a, b⟩ := p
    simp only [List.map_cons]
    by_cases hp : a = k
    · rw [if_pos hp, dictGet_cons, dictGet_cons, if_neg (Ne.symm h),
        if_neg (by rw [hp]; exact Ne.symm h)]
      exact ih
    · rw [if_neg hp, dictGet_cons, dictGet_cons]
      by_cases hp' : a = k'
      · rw [if_pos hp', if_pos hp']
      · rw [if_neg hp', if_neg hp']
        exact ih

theorem dictGet_append_ne {V : Type} (l : List (String × V)) (k k' : String)
    (v : V) (h : k' ≠ k) :
    dictGet (l ++ [(k, v)]) k' = dictGet l k' := by
  induction l with
  | nil => simp [dictGet, Ne.symm h]
  | cons p rest ih =>
    obtain ⟨a, b⟩ := p
    rw [List.cons_append, dictGet_cons, dictGet_cons]
    by_cases hp' : a = k'
    · rw [if_pos hp', if_pos hp']
    · rw [if_neg hp', if_neg hp']
      exact ih

theorem dictGet_dictInsert_ne {V : Type} (l : List (String × V)) (k k' : String)
    (v : V) (h : k' ≠ k) :
    dictGet (dictInsert l k v) k' = dictGet l k' := by
  unfold dictInsert
  split
  · exact dictGet_map_replace_ne l k k' v h
  · exact dictGet_append_ne l k k' v h

theorem dictGet_dictErase_self {V : Type} (l : List (String × V)) (k : String) :
    dictGet (dictErase l k) k = none := by
  induction l with
  | nil => rfl
  | cons p rest ih =>
    obtain ⟨a, b⟩ := p
    by_cases hp : a = k
    · simpa [dictErase, hp] using ih
    · have : dictErase ((a, b) :: rest) k = (a, b) :: dictErase rest k := by
        simp [dictErase, hp]
      rw [this, dictGet_cons, if_neg hp]
      exact ih

theorem dictGet_dictErase_ne {V : Type} (l : List (String × V)) (k k' : String)
    (h : k' ≠ k) : dictGet (dictErase l k) k' = dictGet l k' := by
  induction l with
  | nil => rfl
  | cons p rest ih =>
    obtain ⟨a, b⟩ := p
    by_cases hp : a = k
    · have h1 : dictErase ((a, b) :: rest) k = dictErase rest k := by
        simp [dictErase, hp]
      have h2 : ¬ a = k' := by rw [hp]; exact Ne.symm h
      rw [h1, dictGet_cons, if_neg h2]
      exact ih
    · have h1 : dictErase ((a, b) :: rest) k = (a, b) :: dictErase rest k := by
        simp [dictErase, hp]
      rw [h1, dictGet_cons, dictGet_cons]
      by_cases hp' : a = k'
      · rw [if_pos hp', if_pos hp']
      · rw [if_neg hp', if_neg hp']
        exact ih

theorem dictGet_dictErase_sub {V : Type} (l : List (String × V)) (k k' : String)
    (x : V) (h : dictGet (dictErase l k) k' = some x) :
    dictGet l k' = some x := by
  by_cases hk : k' = k
  · rw [hk, dictGet_dictErase_self] at h; cases h
  · rwa [dictGet_dictErase_ne l k k' hk] at h

/-! ## Claim C5 -/

/-- C5 counterexample: the state `memSt1` holds the non-expired session
`sess1` under `"s1"` (at time 110, with timeout 30), yet `create_session`
does not fail with any `DuplicateSession` error — no such failure path
exists in the source — and instead silently installs a fresh empty session
over the live one. -/
theorem create_session_duplicate_cex :
    dictGet memSt1.sessions "s1" = some sess1 ∧
    ¬ (memSt1.session_timeout < 110 - sess1.last_activity) ∧
    sess1.messages ≠ [] ∧
    (create_session memSt1 110 "s1" none none).1.messages = [] ∧
    dictGet (create_session memSt1 110 "s1" none none).2.sessions "s1" =
      some (create_session memSt1 110 "s1" none none).1 := by
  decide

/-- C5 (amended): `create_session` never fails. For every state and every
`session_id` — present or absent, expired or not — it succeeds,
unconditionally replacing whatever was stored under that id with a fresh
empty session, and leaves every other id's entry unchanged. -/
theorem create_session_always_replaces (st : MemState) (now : Nat)
    (sid : String) (bid uid : Option String) :
    dictGet (create_session st now sid bid uid).2.sessions sid =
      some (create_session st now sid bid uid).1 ∧
    (create_session st now sid bid uid).1.messages = [] ∧
    (create_session st now sid bid uid).1.created_at = now ∧
    (create_session st now sid bid uid).1.last_activity = now ∧
    (∀ k : String, k ≠ sid →
      dictGet (create_session st now sid bid uid).2.sessions k =
        dictGet st.sessions k) := by
  refine ⟨dictGet_dictInsert_self .., rfl, rfl, rfl, fun k hk => ?_⟩
  exact dictGet_dictInsert_ne st.sessions sid k _ hk

/-- Witness for `create_session_always_replaces` at a live duplicate id. -/
theorem create_session_always_replaces_witness :
    dictGet (create_session memSt1 110 "s1" none none).2.sessions "s1" =
      some (create_session memSt1 110 "s1" none none).1 ∧
    dictGet (create_session memSt1 110 "s1" none none).2.sessions "other" =
      dictGet memSt1.sessions "other" :=
  ⟨(create_session_always_replaces memSt1 110 "s1" none none).1,
   (create_session_always_replaces memSt1 110 "s1" none none).2.2.2.2 "other"
     (by decide)⟩

/-! ## Claim C9 -/

/-- C9: a stored session whose `last_activity` is more than the timeout
before `now` is inaccessible: `get_session` returns `none` and removes the
entry from the store. -/
theorem expired_session_evicted (st : MemState) (now : Nat) (sid : String)
    (s : ConversationSession)
    (hs : dictGet st.sessions sid = some s)
    (hexp : st.session_timeout < now - s.last_activity) :
    (get_session st now sid).1 = none ∧
    dictGet (get_session st now sid).2.sessions sid = none ∧
    (get_session st now sid).2 =
      { st with sessions := dictErase st.sessions sid } := by
  unfold get_session
  rw [hs]
  simp [hexp, dictGet_dictErase_self]

/-- Witness for `expired_session_evicted`: `sess1` (last active at 100)
queried at time 200 with timeout 30. -/
theorem expired_session_evicted_witness :
    (get_session memSt1 200 "s1").1 = none ∧
    dictGet (get_session memSt1 200 "s1").2.sessions "s1" = none :=
  ⟨(expired_session_evicted memSt1 200 "s1" sess1 (by decide) (by decide)).1,
   (expired_session_evicted memSt1 200 "s1" sess1 (by decide) (by decide)).2.1⟩

/-! ## get_session equation lemmas -/

theorem get_session_absent (st : MemState) (now : Nat) (sid : String)
    (hs : dictGet st.sessions sid = none) :
    get_session st now sid = (none, st) := by
  unfold get_session
  rw [hs]

theorem get_session_expired (st : MemState) (now : Nat) (sid : String)
    (s : ConversationSession) (hs : dictGet st.sessions sid = some s)
    (hexp : st.session_timeout < now - s.last_activity) :
    get_session st now sid =
      (none, { st with sessions := dictErase st.sessions sid }) := by
  unfold get_session
  rw [hs]
  simp [hexp]

theorem get_session_fresh (st : MemState) (now : Nat) (sid : String)
    (s : ConversationSession) (hs : dictGet st.sessions sid = some s)
    (hfresh : ¬ st.session_timeout < now - s.last_activity) :
    get_session st now sid = (some s, st) := by
  unfold get_session
  rw [hs]
  simp [hfresh]

/-! ## Claim C6 -/

/-- C6: `add_assistant_message` returns `none` for an absent or expired
session and neither creates nor modifies any session (every entry of the
resulting store was already stored unchanged); for a present, non-expired
session it appends one assistant message and returns the updated session. -/
theorem add_assistant_message_contract (st : MemState) (now : Nat)
    (sid : String) (msg : String) (md : Option MetaData) :
    (dictGet st.sessions sid = none →
      (add_assistant_message st now sid msg md).1 = none ∧
      (add_assistant_message st now sid msg md).2 = st) ∧
    (∀ s, dictGet st.sessions sid = some s →
      st.session_timeout < now - s.last_activity →
      (add_assistant_message st now sid msg md).1 = none ∧
      (∀ k x,
        dictGet (add_assistant_message st now sid msg md).2.sessions k = some x →
        dictGet st.sessions k = some x)) ∧
    (∀ s, dictGet st.sessions sid = some s →
      ¬ st.session_timeout < now - s.last_activity →
      (add_assistant_message st now sid msg md).1 =
        some (s.add_message "assistant" msg md now) ∧
      dictGet (add_assistant_message st now sid msg md).2.sessions sid =
        some (s.add_message "assistant" msg md now) ∧
      (s.add_message "assistant" msg md now).messages =
        s.messages ++ [⟨"assistant", msg, now, md⟩]) := by
  refine ⟨?_, ?_, ?_⟩
  · intro habs
    unfold add_assistant_message
    rw [get_session_absent st now sid habs]
    exact ⟨rfl, rfl⟩
  · intro s hs hexp
    unfold add_assistant_message
    rw [get_session_expired st now sid s hs hexp]
    exact ⟨rfl, fun k x hx => dictGet_dictErase_sub st.sessions sid k x hx⟩
  · intro s hs hfresh
    unfold add_assistant_message
    rw [get_session_fresh st now sid s hs hfresh]
    exact ⟨rfl, dictGet_dictInsert_self .., rfl⟩

/-- Witness for `add_assistant_message_contract`: the absent id `"nope"`
returns `none` leaving the state unchanged, and the live id `"s1"` at time
110 gets the assistant message appended. -/
theorem add_assistant_message_contract_witness :
    ((add_assistant_message memSt1 110 "nope" "hi" none).1 = none ∧
      (add_assistant_message memSt1 110 "nope" "hi" none).2 = memSt1) ∧
    ((add_assistant_message memSt1 110 "s1" "hi" none).1 =
        some (sess1.add_message "assistant" "hi" none 110) ∧
      dictGet (add_assistant_message memSt1 110 "s1" "hi" none).2.sessions "s1" =
        some (sess1.add_message "assistant" "hi" none 110)) :=
  ⟨(add_assistant_message_contract memSt1 110 "nope" "hi" none).1 (by decide),
   ⟨((add_assistant_message_contract memSt1 110 "s1" "hi" none).2.2 sess1
       (by decide) (by decide)).1,
    ((add_assistant_message_contract memSt1 110 "s1" "hi" none).2.2 sess1
       (by decide) (by decide)).2.1⟩⟩

/-! ## Claim C8 -/

theorem add_user_message_fresh (st : MemState) (t : Nat) (sid : String)
    (m : String) (s : ConversationSession)
    (hs : dictGet st.sessions sid = some s)
    (hfresh : ¬ st.session_timeout < t - s.last_activity) :
    add_user_message st t sid m none none none =
      (s.add_message "user" m none t,
       { st with
         sessions := dictInsert st.sessions sid (s.add_message "user" m none t) }) := by
  unfold add_user_message get_or_create_session
  rw [get_session_fresh st t sid s hs hfresh]

theorem add_assistant_message_fresh (st : MemState) (t : Nat) (sid : String)
    (m : String) (s : ConversationSession)
    (hs : dictGet st.sessions sid = some s)
    (hfresh : ¬ st.session_timeout < t - s.last_activity) :
    add_assistant_message st t sid m none =
      (some (s.add_message "assistant" m none t),
       { st with
         sessions :=
           dictInsert st.sessions sid (s.add_message "assistant" m none t) }) := by
  unfold add_assistant_message
  rw [get_session_fresh st t sid s hs hfresh]

/-- After a sequence of non-expiring append calls the stored session's
message list is the original list extended by one message per call, in
call order. -/
theorem runCalls_appends (calls : List (Nat × MemCall)) :
    ∀ (st : MemState) (sid : String) (s : ConversationSession),
      dictGet st.sessions sid = some s →
      chainFresh st.session_timeout s.last_activity calls = true →
      ∃ s', dictGet (runCalls st sid calls).sessions sid = some s' ∧
        s'.messages = s.messages ++ calls.map callMsg := by
  induction calls with
  | nil =>
    intro st sid s hs _
    exact ⟨s, by simpa [runCalls] using hs, by simp⟩
  | cons c rest ih =>
    obtain ⟨t, mc⟩ := c
    intro st sid s hs hc
    simp only [chainFresh, Bool.and_eq_true, Bool.not_eq_true',
      decide_eq_false_iff_not] at hc
    cases mc with
    | user m =>
      rw [runCalls, add_user_message_fresh st t sid m s hs hc.1]
      have hs' :
          dictGet (dictInsert st.sessions sid (s.add_message "user" m none t))
            sid = some (s.add_message "user" m none t) :=
        dictGet_dictInsert_self ..
      obtain ⟨s', h1, h2⟩ :=
        ih { st with
              sessions :=
                dictInsert st.sessions sid (s.add_message "user" m none t) }
          sid (s.add_message "user" m none t) hs' hc.2
      refine ⟨s', h1, ?_⟩
      simp [h2, ConversationSession.add_message, callMsg]
    | assistant m =>
      rw [runCalls, add_assistant_message_fresh st t sid m s hs hc.1]
      have hs' :
          dictGet
            (dictInsert st.sessions sid (s.add_message "assistant" m none t))
            sid = some (s.add_message "assistant" m none t) :=
        dictGet_dictInsert_self ..
      obtain ⟨s', h1, h2⟩ :=
        ih { st with
              sessions :=
                dictInsert st.sessions sid (s.add_message "assistant" m none t) }
          sid (s.add_message "assistant" m none t) hs' hc.2
      refine ⟨s', h1, ?_⟩
      simp [h2, ConversationSession.add_message, callMsg]

/-- C8: starting from an existing session with an empty message list,
after `N` sequential `add_user_message`/`add_assistant_message` calls
during which the session never expires, the stored session holds exactly
`N` messages, in call order, each with the role and content of the
corresponding call. -/
theorem session_append_monotonic (st : MemState) (sid : String)
    (s : ConversationSession) (calls : List (Nat × MemCall))
    (hs : dictGet st.sessions sid = some s)
    (hm : s.messages = [])
    (hc : chainFresh st.session_timeout s.last_activity calls = true) :
    ∃ s', dictGet (runCalls st sid calls).sessions sid = some s' ∧
      s'.messages = calls.map callMsg ∧
      s'.messages.length = calls.length := by
  obtain ⟨s', h1, h2⟩ := runCalls_appends calls st sid s hs hc
  rw [hm] at h2
  exact ⟨s', h1, by simpa using h2, by simp [h2]⟩

/-- Witness for `session_append_monotonic`: two calls against the fresh
session `sess0`. -/
theorem session_append_monotonic_witness :
    ∃ s',
      dictGet (runCalls memSt0 "s1"
          [(5, MemCall.user "hi"), (6, MemCall.assistant "hello")]).sessions
        "s1" = some s' ∧
      s'.messages =
        [(5, MemCall.user "hi"), (6, MemCall.assistant "hello")].map callMsg ∧
      s'.messages.length = 2 :=
  session_append_monotonic memSt0 "s1" sess0
    [(5, .user "hi"), (6, .assistant "hello")]
    (by decide) (by decide) (by decide)

/-! ## Claim C3 -/

/-- C3: whenever the fetched menu snapshot is empty, validation passes the
candidate response through unchanged: `(True, R, [])`. -/
theorem validate_empty_menu_fail_open (db : Except Unit (Option (List RawItem)))
    (R : Str) (h : get_business_menu_items_async db = []) :
    validate_response_async db R = (true, R, []) := by
  unfold validate_response_async
  rw [h]
  rfl

/-- Witness for `validate_empty_menu_fail_open` at a concrete empty fetch. -/
theorem validate_empty_menu_fail_open_witness :
    get_business_menu_items_async (.ok none) = [] ∧
    validate_response_async (.ok none) ("Hello there".data) =
      (true, "Hello there".data, []) :=
  ⟨rfl, validate_empty_menu_fail_open (.ok none) ("Hello there".data) rfl⟩

/-! ## Claim C10 -/

/-- C10 counterexample: when the menu fetch itself raises, the exception
is swallowed inside `get_business_menu_items_async` (lines 67-69), the
menu comes back empty, and the validator FAIL-OPENS, returning
`(True, R, [])` — not the fail-closed `(False, error apology, [])` the
claim asserts for fetch exceptions. -/
theorem fetch_exception_fail_open_cex :
    validate_response_async (.error ()) ("Do you have burgers?".data) =
      (true, "Do you have burgers?".data, []) ∧
    (true, ("Do you have burgers?".data : Str), ([] : List Str)) ≠
      (false, errorApology, []) := by
  constructor
  · rfl
  · decide

/-- C10 (amended): a menu-fetch exception is caught inside the fetch
helper and produces the fail-open pass-through `(True, R, [])`; only an
exception raised by the validation body after a successful non-empty
fetch (a fetched item record lacking the `name` or `price` key, raising
`KeyError`) reaches the handler at lines 177-179, which returns
`is_valid=False` with the fixed error apology and an empty item list, and
no exception propagates to the caller. -/
theorem validator_exception_amended (R : Str) :
    validate_response_async (.error ()) R = (true, R, []) ∧
    (∀ raws : List RawItem, raws.isEmpty = false →
      raws.mapM toTyped = Except.error () →
      validate_response_async (.ok (some raws)) R = (false, errorApology, [])) := by
  constructor
  · unfold validate_response_async get_business_menu_items_async
    rfl
  · intro raws h1 h2
    show (if raws.isEmpty = true then ((true, R, []) : Bool × Str × List Str)
        else
          match raws.mapM toTyped with
          | Except.error _ => (false, errorApology, [])
          | Except.ok typed => validateCore R typed) =
      (false, errorApology, [])
    rw [h2, h1]
    simp

/-- Witness for `validator_exception_amended`: a raw item carrying only a
`name` key makes the body raise, and the fixed apology comes back. -/
theorem validator_exception_amended_witness :
    validate_response_async (.error ()) ("hi".data) = (true, "hi".data, []) ∧
    validate_response_async (.ok (some [[("name", "X".data)]])) ("hi".data) =
      (false, errorApology, []) :=
  ⟨(validator_exception_amended ("hi".data)).1,
   (validator_exception_amended ("hi".data)).2 [[("name", "X".data)]]
     (by rfl) (by rfl)⟩

/-! ## Claim C1 -/

/-- C1 counterexample: against the menu `[Cappuccino]`, the response
"I've added a latte to your cart, plus a Cappuccino." is accepted
(`is_valid=True`) through the cart-confirmation carve-out (lines 137-151),
although the generic term "latte" occurs in it, no negative-availability
marker occurs anywhere in the response (so no clause of it contains one,
under any reading of "clause"), and "latte" is not a substring of any menu
item name — violating the claimed three-way disjunction. -/
theorem grounding_invariant_cex :
    ("latte".data : Str) ∈ generic_items ∧
    (validateCore cartResp cappMenu).1 = true ∧
    containsSub ("latte".data) (lowerStr cartResp) = true ∧
    (∀ ind ∈ negative_indicators, containsSub ind (lowerStr cartResp) = false) ∧
    (∀ it ∈ cappMenu, containsSub ("latte".data) (lowerStr it.name) = false) := by
  decide

/-- C1 (amended): for a non-empty menu, if validation returns
`is_valid=True` then every generic term in the fixed vocabulary either
(a) does not occur in the response (case-insensitively), or (b) a
negative-availability marker occurs somewhere in the response (the source
checks the whole response, not the clause containing the term), or (c) is
a substring of some menu item name, or (d) the response carries a
cart-confirmation indicator together with some full menu item name (the
carve-out of lines 137-151). -/
theorem grounding_invariant_amended (R : Str) (M : List MenuItem)
    (_hM : M ≠ [])
    (hvalid : (validateCore R M).1 = true) :
    ∀ g ∈ generic_items,
      containsSub g (lowerStr R) = false ∨
      has_negative_indicator R = true ∨
      (∃ it ∈ M, containsSub g (lowerStr it.name) = true) ∨
      (has_cart_indicator R = true ∧ has_menu_items R M = true) := by
  intro g hg
  by_cases hnm : (non_menu_items R M).isEmpty = true
  · have hnil : non_menu_items R M = [] := by
      simpa [List.isEmpty_iff] using hnm
    have hpred :
        ¬ (containsSub g (lowerStr R) &&
           !((M.map (fun it => lowerStr it.name)).any
               (fun item => containsSub g item)) &&
           !has_negative_indicator R) = true := by
      intro hp
      have hmem : g ∈ non_menu_items R M := List.mem_filter.2 ⟨hg, hp⟩
      rw [hnil] at hmem
      cases hmem
    by_cases h1 : containsSub g (lowerStr R) = true
    · by_cases h2 : has_negative_indicator R = true
      · exact Or.inr (Or.inl h2)
      · have h3 :
            ((M.map (fun it => lowerStr it.name)).any
              (fun item => containsSub g item)) = true := by
          by_contra h3
          apply hpred
          simp only [Bool.and_eq_true, Bool.not_eq_true]
          exact ⟨⟨h1, by simpa using h3⟩, by simpa using h2⟩
        obtain ⟨nm, hnmm, hnsub⟩ := List.any_eq_true.1 h3
        obtain ⟨it, hit, rfl⟩ := List.mem_map.1 hnmm
        exact Or.inr (Or.inr (Or.inl ⟨it, hit, hnsub⟩))
    · exact Or.inl (by simpa using h1)
  · unfold validateCore at hvalid
    rw [if_pos (by simp [Bool.not_eq_true', Bool.not_eq_false] at hnm ⊢; exact hnm)]
      at hvalid
    by_cases hco : (has_cart_indicator R && has_menu_items R M) = true
    · exact Or.inr (Or.inr (Or.inr (by simpa using hco)))
    · rw [if_neg hco] at hvalid
      cases hvalid

/-- Witness for `grounding_invariant_amended`: the grounded response
"Our Cappuccino is great." over the menu `[Cappuccino]`. -/
theorem grounding_invariant_amended_witness :
    cappMenu ≠ [] ∧ (validateCore groundedResp cappMenu).1 = true ∧
    ∀ g ∈ generic_items,
      containsSub g (lowerStr groundedResp) = false ∨
      has_negative_indicator groundedResp = true ∨
      (∃ it ∈ cappMenu, containsSub g (lowerStr it.name) = true) ∨
      (has_cart_indicator groundedResp = true ∧
        has_menu_items groundedResp cappMenu = true) :=
  ⟨by decide, by decide,
   grounding_invariant_amended groundedResp cappMenu (by decide) (by decide)⟩

/-! ## Grouping and rendering lemmas -/

theorem entryIn_addToGroups {cat e : Str} {gs : List (Str × List Str)}
    (c' e' : Str) (h : entryIn cat e gs) :
    entryIn cat e (addToGroups gs c' e') := by
  obtain ⟨p, hp, h1, h2⟩ := h
  unfold addToGroups
  split
  · refine ⟨if p.1 = c' then (p.1, p.2 ++ [e']) else p,
      List.mem_map_of_mem _ hp, ?_, ?_⟩
    · by_cases hc : p.1 = c'
      · rw [if_pos hc]; exact h1
      · rw [if_neg hc]; exact h1
    · by_cases hc : p.1 = c'
      · rw [if_pos hc]; exact List.mem_append_left _ h2
      · rw [if_neg hc]; exact h2
  · exact ⟨p, List.mem_append_left _ hp, h1, h2⟩

theorem entryIn_addToGroups_self (gs : List (Str × List Str)) (c' e' : Str) :
    entryIn c' e' (addToGroups gs c' e') := by
  unfold addToGroups
  split
  case isTrue h =>
    obtain ⟨p, hp, hpc⟩ := List.any_eq_true.1 h
    rw [decide_eq_true_eq] at hpc
    refine ⟨(p.1, p.2 ++ [e']), ?_, hpc, by simp⟩
    have : (fun q => if q.1 = c' then (q.1, q.2 ++ [e']) else q) p =
        (p.1, p.2 ++ [e']) := by simp [hpc]
    rw [← this]
    exact List.mem_map_of_mem _ hp
  case isFalse =>
    exact ⟨(c', [e']), List.mem_append_right _ (by simp), rfl, by simp⟩

theorem entryIn_foldl {cat e : Str} (menu : List MenuItem) :
    ∀ gs, entryIn cat e gs →
      entryIn cat e
        (menu.foldl (fun gs it => addToGroups gs it.category (fmtItem it)) gs) := by
  induction menu with
  | nil => intro gs h; exact h
  | cons it rest ih =>
    intro gs h
    exact ih _ (entryIn_addToGroups _ _ h)

theorem entryIn_foldl_mem {it : MenuItem} (menu : List MenuItem)
    (h : it ∈ menu) :
    ∀ gs, entryIn it.category (fmtItem it)
      (menu.foldl (fun gs q => addToGroups gs q.category (fmtItem q)) gs) := by
  induction menu with
  | nil => cases h
  | cons hd rest ih =>
    intro gs
    rcases List.mem_cons.1 h with rfl | hmem
    · exact entryIn_foldl rest _ (entryIn_addToGroups_self gs _ _)
    · exact ih hmem _

theorem mem_groupByCategory {it : MenuItem} {menu : List MenuItem}
    (h : it ∈ menu) :
    entryIn it.category (fmtItem it) (groupByCategory menu) :=
  entryIn_foldl_mem menu h []

theorem mem_renderGroups_parts {p : Str × List Str}
    {gs : List (Str × List Str)} (h : p ∈ gs) :
    ∃ u v, renderGroups gs = u ++ renderGroup p ++ v := by
  induction gs with
  | nil => cases h
  | cons q rest ih =>
    rcases List.mem_cons.1 h with rfl | hmem
    · exact ⟨[], renderGroups rest, by simp [renderGroups]⟩
    · obtain ⟨u, v, hr⟩ := ih hmem
      refine ⟨renderGroup q ++ u, v, ?_⟩
      have : renderGroups (q :: rest) = renderGroup q ++ renderGroups rest := by
        simp [renderGroups]
      rw [this, hr]
      simp [List.append_assoc]

theorem mem_flatten_parts {α : Type} (f : α → Str) {x : α} {l : List α}
    (h : x ∈ l) : ∃ u v, (l.map f).flatten = u ++ f x ++ v := by
  induction l with
  | nil => cases h
  | cons hd rest ih =>
    rcases List.mem_cons.1 h with rfl | hmem
    · exact ⟨[], (rest.map f).flatten, by simp⟩
    · obtain ⟨u, v, hr⟩ := ih hmem
      exact ⟨f hd ++ u, v, by simp [hr, List.append_assoc]⟩

theorem entryIn_render_parts {cat e : Str} {gs : List (Str × List Str)}
    (h : entryIn cat e gs) :
    (∃ u v, renderGroups gs = u ++ (("- ".data) ++ e ++ ("\n".data)) ++ v) ∧
    (∃ u v, renderGroups gs = u ++ (("\n".data) ++ cat ++ (":\n".data)) ++ v) := by
  obtain ⟨p, hp, hcat, he⟩ := h
  obtain ⟨u, v, hr⟩ := mem_renderGroups_parts hp
  constructor
  · obtain ⟨u2, v2, hf⟩ :=
      mem_flatten_parts (fun e => ("- ".data) ++ e ++ ("\n".data)) he
    refine ⟨u ++ (("\n".data) ++ p.1 ++ (":\n".data)) ++ u2, v2 ++ v, ?_⟩
    rw [hr]
    unfold renderGroup
    rw [hf]
    simp [List.append_assoc]
  · refine ⟨u, ((p.2.map (fun e => ("- ".data) ++ e ++ ("\n".data))).flatten) ++ v, ?_⟩
    rw [hr]
    unfold renderGroup
    rw [hcat]
    simp [List.append_assoc]

/-! ## Claim C4 -/

/-- C4: on rejection (non-empty menu, at least one flagged generic term,
no cart carve-out) the validator returns `is_valid=False` and the
synthesized `safe_response`, which starts with the fixed apology and, for
every menu item, contains the item's category header and the line
`"- name (₱price)"` with the exact name and price. -/
theorem rejection_synthesizes_listing (R : Str) (M : List MenuItem)
    (hM : M ≠ [])
    (hflag : (non_menu_items R M).isEmpty = false)
    (hcart : (has_cart_indicator R && has_menu_items R M) = false) :
    (validateCore R M).1 = false ∧
    (validateCore R M).2.1 = corrected_response M ∧
    hasPre apologyText (corrected_response M) = true ∧
    (∀ it ∈ M,
      containsSub (("- ".data) ++ fmtItem it ++ ("\n".data))
        (corrected_response M) = true ∧
      containsSub (("\n".data) ++ it.category ++ (":\n".data))
        (corrected_response M) = true) := by
  have hcore : validateCore R M = (false, corrected_response M, M.map fmtItem) := by
    unfold validateCore
    rw [if_pos (by rw [hflag]; rfl), if_neg (by rw [hcart]; simp)]
  have hne : (M.map fmtItem).isEmpty = false := by
    cases M with
    | nil => exact absurd rfl hM
    | cons a l => rfl
  have hcr : corrected_response M =
      apologyText ++ (("Here are our available items:\n".data) ++
        renderGroups (groupByCategory M)) := by
    unfold corrected_response
    rw [hne]
    rfl
  refine ⟨by rw [hcore], by rw [hcore], by rw [hcr]; exact hasPre_append .., ?_⟩
  intro it hit
  obtain ⟨⟨u1, v1, h1⟩, ⟨u2, v2, h2⟩⟩ :=
    entryIn_render_parts (mem_groupByCategory hit)
  constructor
  · rw [hcr, h1]
    exact (containsSub_iff _ _).2
      ⟨apologyText ++ ("Here are our available items:\n".data) ++ u1, v1,
       by simp [List.append_assoc]⟩
  · rw [hcr, h2]
    exact (containsSub_iff _ _).2
      ⟨apologyText ++ ("Here are our available items:\n".data) ++ u2, v2,
       by simp [List.append_assoc]⟩

/-- Witness for `rejection_synthesizes_listing`: spec example 1 — the
request "Can I get a latte?" against the menu `[Cappuccino]`. -/
theorem rejection_synthesizes_listing_witness :
    cappMenu ≠ [] ∧
    (non_menu_items latteReq cappMenu).isEmpty = false ∧
    (validateCore latteReq cappMenu).1 = false ∧
    hasPre apologyText (corrected_response cappMenu) = true ∧
    (∀ it ∈ cappMenu,
      containsSub (("- ".data) ++ fmtItem it ++ ("\n".data))
        (corrected_response cappMenu) = true) :=
  ⟨by decide, by decide,
   (rejection_synthesizes_listing latteReq cappMenu (by decide) (by decide)
     (by decide)).1,
   (rejection_synthesizes_listing latteReq cappMenu (by decide) (by decide)
     (by decide)).2.2.1,
   fun it hit =>
     ((rejection_synthesizes_listing latteReq cappMenu (by decide) (by decide)
       (by decide)).2.2.2 it hit).1⟩

/-! ## Claim C7 -/

/-- C7: whenever the (forced) swarm execution does not end with status
`Status.COMPLETED` — handoff limit, timeout, cycle, or a raised exception
— the returned response is exactly what the single-agent fallback
produces for the original customer request with the same business id,
menu context and conversation context; none of the swarm's partial
node history reaches the caller. -/
theorem fallback_on_non_convergence (env : AgentEnv)
    (swarm_run : Except Unit SwarmResult) (req : Str)
    (bid mc cc : Option Str)
    (h : ∀ r, swarm_run = .ok r → r.status ≠ ("Status.COMPLETED".data)) :
    process_order_with_swarm env swarm_run req bid mc cc true =
      fallback_to_single_agent env req bid mc cc := by
  unfold process_order_with_swarm
  cases swarm_run with
  | error e => rfl
  | ok r =>
    simp only [Bool.not_true, Bool.false_eq_true, if_false]
    rw [if_neg (h r rfl)]

/-- Witness for `fallback_on_non_convergence`: a concrete failed swarm
result with partial node output. -/
theorem fallback_on_non_convergence_witness :
    process_order_with_swarm stubEnv (.ok failedSwarm) latteReq none none none
      true = fallback_to_single_agent stubEnv latteReq none none none :=
  fallback_on_non_convergence stubEnv (.ok failedSwarm) latteReq none none none
    (by intro r hr; cases hr; decide)

/-! ## Claim C2 -/

/-- C2 counterexample: a completed swarm run whose final node produced
"How about a latte?" returns that raw text to the caller unchanged, while
`MenuValidator.validate_response_async` on that text over the menu
`[Cappuccino]` rejects it (`is_valid=False`) and would substitute a
different safe response — so the returned text is not the validator's
`safe_response`; no validator runs on any path of
`process_order_with_swarm`. -/
theorem swarm_output_unvalidated_cex :
    process_order_with_swarm stubEnv (.ok doneSwarm) latteReq none none none
      true = rawLatteResp ∧
    (validateCore rawLatteResp cappMenu).1 = false ∧
    (validateCore rawLatteResp cappMenu).2.1 ≠ rawLatteResp := by
  refine ⟨rfl, by decide, by decide⟩

/-- C2 (amended): no termination path passes the output through the menu
validator — the caller receives the raw path text: a completed swarm run
returns its last node's own text verbatim; a non-completed or raising
swarm run, and the default non-forced path, return the fallback agent's
text verbatim. -/
theorem raw_output_returned_amended (env : AgentEnv)
    (swarm_run : Except Unit SwarmResult) (req : Str) (bid mc cc : Option Str) :
    (∀ r node txt, swarm_run = .ok r →
      r.status = ("Status.COMPLETED".data) →
      r.node_history.getLast? = some node → node.result = some txt →
      process_order_with_swarm env swarm_run req bid mc cc true = txt) ∧
    (∀ r, swarm_run = .ok r → r.status ≠ ("Status.COMPLETED".data) →
      process_order_with_swarm env swarm_run req bid mc cc true =
        fallback_to_single_agent env req bid mc cc) ∧
    (swarm_run = .error () →
      process_order_with_swarm env swarm_run req bid mc cc true =
        fallback_to_single_agent env req bid mc cc) ∧
    (process_order_with_swarm env swarm_run req bid mc cc false =
      fallback_to_single_agent env req bid mc cc) := by
  refine ⟨?_, ?_, ?_, rfl⟩
  · intro r node txt hok hst hlast hres
    subst hok
    unfold process_order_with_swarm
    simp only [Bool.not_true, Bool.false_eq_true, if_false]
    rw [if_pos hst, hlast]
    show (match node.result with
          | some r => r
          | none => r.str_repr) = txt
    rw [hres]
  · intro r hok hst
    subst hok
    unfold process_order_with_swarm
    simp only [Bool.not_true, Bool.false_eq_true, if_false]
    rw [if_neg hst]
  · intro he
    subst he
    rfl

/-- Witness for `raw_output_returned_amended`: the completed run
`doneSwarm` returns its raw last-node text, and the failed run
`failedSwarm` returns the fallback text. -/
theorem raw_output_returned_amended_witness :
    process_order_with_swarm stubEnv (.ok doneSwarm) latteReq none none none
      true = rawLatteResp ∧
    process_order_with_swarm stubEnv (.ok failedSwarm) latteReq none none none
      true = fallback_to_single_agent stubEnv latteReq none none none :=
  ⟨(raw_output_returned_amended stubEnv (.ok doneSwarm) latteReq none none
      none).1 doneSwarm ⟨"order_coordinator".data, some rawLatteResp⟩
      rawLatteResp rfl (by decide) (by decide) (by decide),
   (raw_output_returned_amended stubEnv (.ok failedSwarm) latteReq none none
      none).2.1 failedSwarm rfl (by decide)⟩
